import Mathlib

/-!
Verification of the lightroom-AI processing pipeline.

This file gives a shallow embedding, in Lean 4, of the core of the
repository: the catalog write gateway's cursor retry loop
(`catalog_db.py`), the per-item and per-batch processing of the batch
orchestrator (`batch_processor.py`), the preview decoder and the preview
location engine (`preview_extractor.py`), the filesystem search helpers
(`filesystem.py`, `utils.py`), and the metadata write path
(`catalog_db.py`).  Python strings are modelled as Lean `String`s with
hand-rolled, kernel-reducible character-list operations; bytes are
`List Nat`; external collaborators (PIL, rawpy, the filesystem walk, the
SQLite engine) are modelled as explicit oracle parameters so that every
definition is executable and every control-flow branch of the source is
preserved.
-/

/- ### String and byte-list helpers (Python built-ins used by the source) -/

/-- ASCII lower-casing of one character, as Python `str.lower` acts on the
ASCII file names manipulated by the source. -/
def lowerChar (c : Char) : Char :=
  if 'A' ≤ c ∧ c ≤ 'Z' then Char.ofNat (c.toNat + 32) else c

/-- Python `str.lower()` on ASCII strings. -/
def strLower (s : String) : String := String.mk (s.toList.map lowerChar)

/-- Index of the first occurrence of `pat` in `l`, Python `bytes.find` /
substring search (`none` models Python's `-1`). -/
def findSub {α : Type} [DecidableEq α] (pat : List α) : List α → Option Nat
  | [] => if pat = [] then some 0 else none
  | a :: l => if pat.isPrefixOf (a :: l) then some 0 else (findSub pat l).map (· + 1)

/-- Index of the last occurrence of `pat` in `l`, Python `bytes.rfind`
(`none` models Python's `-1`). -/
def rfindSub {α : Type} [DecidableEq α] (pat : List α) (l : List α) : Option Nat :=
  ((List.range (l.length + 1)).filter (fun i => pat.isPrefixOf (l.drop i))).getLast?

/-- Python `pat in s` on strings. -/
def strContains (s pat : String) : Bool := (findSub pat.toList s.toList).isSome

/-- Python `s.endswith(pat)`. -/
def strEndsWith (s pat : String) : Bool := pat.toList.isSuffixOf s.toList

/-- Python `os.path.basename`: the part of the path after the last slash. -/
def pyBasename (s : String) : String :=
  match rfindSub ['/'] s.toList with
  | none => s
  | some i => String.mk (s.toList.drop (i + 1))

/-- Python `os.path.splitext(s)[0]`: drop the extension starting at the
last dot, keeping the whole name when there is no dot or the dot is
leading. -/
def splitextBase (s : String) : String :=
  match rfindSub ['.'] s.toList with
  | none => s
  | some i => if i = 0 then s else String.mk (s.toList.take i)

namespace CatalogDb

/-!
### Catalog write gateway: cursor acquisition retry loop

`CatalogDatabase.cursor` (catalog_db.py lines 79-135) runs a `while
retry_count <= retries` loop.  Each iteration attempts to acquire the
transaction (`self._connect()` followed by `BEGIN DEFERRED`).  An
`sqlite3.OperationalError` whose text contains "database is locked"
raised by the acquisition is caught at lines 120-128: while
`retry_count < retries` the loop increments `retry_count`, sleeps
`0.5 * 2 ** retry_count` seconds, and retries; once
`retry_count == retries` the error is re-raised as is (line 128).  Any
other error propagates immediately.  We model one acquisition attempt
with `AttemptResult`, index attempts by the value of `retry_count` at
which they run, and recurse on `remaining = retries - retry_count`,
which mirrors the loop guard exactly.
-/

/-- Outcome of one acquisition attempt (`_connect()` + `BEGIN DEFERRED`).
`lockFailure e` is an `sqlite3.OperationalError` containing "database is
locked" (identified by `e`); `otherFailure` is any other exception, which
the loop never retries. -/
inductive AttemptResult where
  | success
  | lockFailure (errId : Nat)
  | otherFailure (errId : Nat)
deriving DecidableEq

/-- The exception that propagates out of `cursor`, when one does. -/
inductive CursorError where
  | locked (errId : Nat)
  | other (errId : Nat)
deriving DecidableEq

/-- What one call to `cursor` did: how many acquisition attempts ran, the
successive backoff sleeps in milliseconds, and the exception raised, if
any (`none` = the cursor was acquired). -/
structure CursorOutcome where
  attempts : Nat
  waitsMs : List Nat
  raised : Option CursorError
deriving DecidableEq

/-- The backoff sleep `0.5 * 2 ** retry_count` of catalog_db.py line 124,
in milliseconds. -/
def backoffWaitMs (retryCount : Nat) : Nat := 500 * 2 ^ retryCount

/-- The acquisition retry loop of `CatalogDatabase.cursor`, recursing on
`remaining = retries - retry_count`; `k` is the current `retry_count`.
The guard `retry_count < retries` of line 121 is exactly
`remaining ≠ 0`. -/
def cursorAcquireLoop (attempt : Nat → AttemptResult) (k : Nat) : Nat → CursorOutcome
  | 0 =>
    match attempt k with
    | .success => ⟨1, [], none⟩
    | .otherFailure e => ⟨1, [], some (.other e)⟩
    | .lockFailure e => ⟨1, [], some (.locked e)⟩
  | remaining + 1 =>
    match attempt k with
    | .success => ⟨1, [], none⟩
    | .otherFailure e => ⟨1, [], some (.other e)⟩
    | .lockFailure _e =>
      let rest := cursorAcquireLoop attempt (k + 1) remaining
      ⟨rest.attempts + 1, backoffWaitMs (k + 1) :: rest.waitsMs, rest.raised⟩

/-- One call to `cursor(retries)` whose acquisition attempts behave as
`attempt`: the loop starts at `retry_count = 0`, so `remaining =
retries`. -/
def cursorAcquire (attempt : Nat → AttemptResult) (retries : Nat) : CursorOutcome :=
  cursorAcquireLoop attempt 0 retries

end CatalogDb

namespace BatchProc

/-!
### Per-item processing and sequential batches

`BatchProcessor.process_image` (batch_processor.py lines 100-214) runs
locate → extract → prepare → analyze → db-update, returning a result
dictionary whose `stage` names the first failing step.  A database
exception is caught by the dedicated handler at lines 187-193 (stage
`db_update`); any other exception escaping a step is caught by the
per-item handler at lines 200-207 (stage `exception`).
`BatchProcessor.process_batch` (lines 216-264) with `max_workers == 1`
processes the items of a batch sequentially and collects one result per
item.  Each collaborator call is modelled by a `Call`: it either returns
a value or raises an exception with a message.
-/

/-- A collaborator call: returns a value or raises an exception. -/
inductive Call (α : Type) where
  | returns (a : α)
  | raises (msg : String)
deriving DecidableEq

/-- The behaviour of the per-item collaborators for one image:
`locate_preview_file` (an optional path), `extract_jpeg_from_preview`
(an optional bitmap handle), `image_processor.process_image` (an optional
base64 payload), `ai_provider.analyze_image` (optional metadata), and
`update_image_metadata` (a success flag). -/
structure ItemEnv where
  locate : Call (Option String)
  extract : Call (Option Nat)
  prepare : Call (Option String)
  analyze : Call (Option String)
  dbUpdate : Call Bool
deriving DecidableEq

/-- The per-item result dictionary of `process_image`. -/
structure ProcessingResult where
  imageId : Nat
  baseName : String
  success : Bool
  stage : String
  error : Option String
deriving DecidableEq

/-- The message of the first exception of `env` that reaches the
per-item handler (stage `exception`); `none` if no step raises an
uncaught exception.  A `dbUpdate` exception is absent here because the
handler at batch_processor.py lines 187-193 catches it first. -/
def exnMessage (env : ItemEnv) : Option String :=
  match env.locate with
  | .raises m => some m
  | .returns none => none
  | .returns (some _) =>
    match env.extract with
    | .raises m => some m
    | .returns none => none
    | .returns (some _) =>
      match env.prepare with
      | .raises m => some m
      | .returns none => none
      | .returns (some _) =>
        match env.analyze with
        | .raises m => some m
        | .returns none => none
        | .returns (some _) => none

/-- Whether the item's processing raises an unexpected exception, i.e.
one that reaches the per-item `except` boundary. -/
def raisesUnexpected (env : ItemEnv) : Bool := (exnMessage env).isSome

/-- `BatchProcessor.process_image` (batch_processor.py lines 100-214). -/
def process_image (imageId : Nat) (baseName : String) (env : ItemEnv) : ProcessingResult :=
  match env.locate with
  | .raises m => ⟨imageId, baseName, false, "exception", some m⟩
  | .returns none => ⟨imageId, baseName, false, "locate_preview", some "No preview found"⟩
  | .returns (some _) =>
    match env.extract with
    | .raises m => ⟨imageId, baseName, false, "exception", some m⟩
    | .returns none => ⟨imageId, baseName, false, "extract_preview", some "Failed to extract preview"⟩
    | .returns (some _) =>
      match env.prepare with
      | .raises m => ⟨imageId, baseName, false, "exception", some m⟩
      | .returns none => ⟨imageId, baseName, false, "process_image", some "Failed to prepare image for AI"⟩
      | .returns (some _) =>
        match env.analyze with
        | .raises m => ⟨imageId, baseName, false, "exception", some m⟩
        | .returns none => ⟨imageId, baseName, false, "ai_analysis", some "Failed to get AI metadata"⟩
        | .returns (some _) =>
          match env.dbUpdate with
          | .raises m => ⟨imageId, baseName, false, "db_update", some ("Database error: " ++ m)⟩
          | .returns false => ⟨imageId, baseName, false, "db_update", some "Failed to update database"⟩
          | .returns true => ⟨imageId, baseName, true, "complete", none⟩

/-- One work item: `(image_id, base_name, collaborator behaviour)`. -/
def Item : Type := Nat × String × ItemEnv

/-- Fixture: an item whose preview is not found (a plain failure, not an
exception). -/
def envLocateMiss : ItemEnv :=
  ⟨.returns none, .returns (some 0), .returns (some "b64"), .returns (some "meta"),
    .returns true⟩

/-- Fixture: an item whose locate step raises an unexpected exception. -/
def envRaisesBoom : ItemEnv :=
  ⟨.raises "boom", .returns (some 0), .returns (some "b64"), .returns (some "meta"),
    .returns true⟩

/-- Fixture: an item whose every step succeeds. -/
def envAllOk : ItemEnv :=
  ⟨.returns (some "/previews/c.jpg"), .returns (some 0), .returns (some "b64"),
    .returns (some "meta"), .returns true⟩

/-- Per-item processing of one `Item`. -/
def processItem (it : Item) : ProcessingResult := process_image it.1 it.2.1 it.2.2

/-- The sequential branch of `BatchProcessor.process_batch`
(batch_processor.py lines 257-264, taken when `max_workers == 1`): each
item is processed in order and its result appended. -/
def process_batch (batch : List Item) : List ProcessingResult := batch.map processItem

end BatchProc

namespace PreviewExt

/-!
### Preview decoder

`PreviewExtractor.extract_jpeg_from_preview` (preview_extractor.py lines
224-349) tries six strategies in order.  PIL bitmap handles are numbered
from 0 in order of creation along each control-flow path; `openAfter`
lists the handles still open at the moment the call returns, after the
`with` blocks and the `finally` block at lines 343-349 (which closes the
local variable `img` when it is not `None`) have run.  The byte stream
of the file is `data`; PIL and rawpy are oracles, because their success
on a given input is external to the repository.
-/

/-- Outcome of `raw.extract_thumb()` inside the DNG strategy:
the call raises, yields a JPEG thumbnail with the given bytes, or yields
a thumbnail in another format. -/
inductive ThumbOutcome where
  | raisesThumb
  | jpegThumb (data : List Nat)
  | nonJpegThumb
deriving DecidableEq

/-- Behaviour of the rawpy collaborator on this file: the module is not
installed (`ImportError`), `rawpy.imread` raises, or it opens and then
`extract_thumb` / `postprocess` behave as given. -/
inductive RawpyBehavior where
  | unavailable
  | openFails
  | opens (thumb : ThumbOutcome) (postprocessOk : Bool)
deriving DecidableEq

/-- One input to the decoder: the path, the file bytes, and the oracles
for the external decoders.  `pilPathOk` tells whether
`Image.open(preview_path)` succeeds; `pilBytesOk b` tells whether
`Image.open(io.BytesIO(b))` succeeds on buffer `b`. -/
structure PreviewInput where
  path : String
  data : List Nat
  pilPathOk : Bool
  pilBytesOk : List Nat → Bool
  rawpy : RawpyBehavior

/-- The decode strategies of preview_extractor.py, tagged in source
order.  A tag is recorded when the strategy's code block starts
executing. -/
inductive Strat where
  | jpegDirect
  | directOpen
  | lrprevExtract
  | dngExtract
  | scanStream
  | finalOpen
deriving DecidableEq

/-- What one call to `extract_jpeg_from_preview` produced: the bitmap
handle returned to the caller (`none` = failure reported), the handles
still open when the call returns, and the strategies attempted. -/
structure DecodeResult where
  returned : Option Nat
  openAfter : List Nat
  attempted : List Strat
deriving DecidableEq

/-- `PreviewExtractor._is_jpeg_header` (lines 212-222):
`header[0:3] == b"\xFF\xD8\xFF"`. -/
def is_jpeg_header (header : List Nat) : Bool := header.take 3 = [0xFF, 0xD8, 0xFF]

/-- Strategy 6 (lines 328-335): `with Image.open(preview_path) as img:
return img.copy()`.  On success handle 0 is opened and bound to `img`,
its copy is handle 1; the `with` exit closes handle 0 and the `finally`
block re-closes it (a no-op), so only the copy is open.  On failure the
handler logs and returns `None`. -/
def strategy6 (inp : PreviewInput) : DecodeResult :=
  if inp.pilPathOk then ⟨some 1, [1], [.finalOpen]⟩
  else ⟨none, [], [.finalOpen]⟩

/-- Strategy 5 (lines 315-326): scan the whole stream for
`b"\xFF\xD8\xFF"`, then `rfind` `b"\xFF\xD9"`; when both are found with
`end > start`, decode the span `data[start:end+2]` from memory.  The
returned handle is never bound to `img`, so the `finally` block leaves
it open; if `Image.open` raises on the span, the outer handler (lines
337-342) returns `None`.  When the markers are not found, control falls
through to strategy 6. -/
def strategy5 (inp : PreviewInput) : DecodeResult :=
  match findSub [0xFF, 0xD8, 0xFF] inp.data with
  | some start =>
    match rfindSub [0xFF, 0xD9] inp.data with
    | some stop =>
      if start < stop then
        let jpegData := (inp.data.drop start).take (stop + 2 - start)
        if inp.pilBytesOk jpegData then ⟨some 0, [0], [.scanStream]⟩
        else ⟨none, [], [.scanStream]⟩
      else
        let r := strategy6 inp
        ⟨r.returned, r.openAfter, .scanStream :: r.attempted⟩
    | none =>
      let r := strategy6 inp
      ⟨r.returned, r.openAfter, .scanStream :: r.attempted⟩
  | none =>
    let r := strategy6 inp
    ⟨r.returned, r.openAfter, .scanStream :: r.attempted⟩

/-- The PIL fallback at the end of the DNG strategy (lines 307-313):
`with Image.open(preview_path) as img: return img.copy()`, returning
`None` if it raises.  Handle accounting is as in `strategy6`. -/
def dngPilFallback (inp : PreviewInput) : DecodeResult :=
  if inp.pilPathOk then ⟨some 1, [1], [.dngExtract]⟩
  else ⟨none, [], [.dngExtract]⟩

/-- Strategy 4 (lines 287-313), for `.dng` smart previews.  The inner
bare `except` at lines 294-299 wraps both `extract_thumb` and the
`Image.open` on the thumbnail bytes, so either failing falls through to
`raw.postprocess()`; a `postprocess` failure is caught at line 304 and
control reaches the PIL fallback, as do `ImportError` and an `imread`
failure.  Every leaf of this block returns, so later strategies are
never attempted for a `.dng` file. -/
def strategy4 (inp : PreviewInput) : DecodeResult :=
  match inp.rawpy with
  | .unavailable => dngPilFallback inp
  | .openFails => dngPilFallback inp
  | .opens thumb postprocessOk =>
    let viaPostprocess : DecodeResult :=
      if postprocessOk then ⟨some 0, [0], [.dngExtract]⟩
      else dngPilFallback inp
    match thumb with
    | .jpegThumb tdata =>
      if inp.pilBytesOk tdata then ⟨some 0, [0], [.dngExtract]⟩
      else viaPostprocess
    | .raisesThumb => viaPostprocess
    | .nonJpegThumb => viaPostprocess

/-- Strategies 3 and 4 and the fall-through to 5 (lines 269-335).
Strategy 3 handles `.lrprev` containers: it finds the first
`b"\xFF\xD8"` and the last `b"\xFF\xD9"`; when both exist it decodes the
span `data[start:end+2]` (the returned handle is never bound to `img`),
and when either is missing it logs "No JPEG data found" and returns
`None` at line 285 — it does not fall through to the remaining
strategies. -/
def strategy3 (inp : PreviewInput) : DecodeResult :=
  if strEndsWith (strLower inp.path) ".lrprev" then
    match findSub [0xFF, 0xD8] inp.data with
    | some start =>
      match rfindSub [0xFF, 0xD9] inp.data with
      | some stop =>
        let jpegData := (inp.data.drop start).take (stop + 2 - start)
        if inp.pilBytesOk jpegData then ⟨some 0, [0], [.lrprevExtract]⟩
        else ⟨none, [], [.lrprevExtract]⟩
      | none => ⟨none, [], [.lrprevExtract]⟩
    | none => ⟨none, [], [.lrprevExtract]⟩
  else if strEndsWith (strLower inp.path) ".dng" then strategy4 inp
  else strategy5 inp

/-- `PreviewExtractor.extract_jpeg_from_preview` (lines 224-349).
An empty file returns `None` at line 244.  Strategy 1 (lines 252-257)
decodes a file whose header is already JPEG inside a `with` block and
returns a copy.  Strategy 2 (lines 259-267) binds `img =
Image.open(preview_path)` and returns `img` itself; the `finally` block
at lines 343-349 then closes `img` before the value reaches the caller,
so the returned handle 0 is no longer open.  When strategy 2 raises, the
bare `except` swallows the error and control continues with
`strategy3`. -/
def extract_jpeg_from_preview (inp : PreviewInput) : DecodeResult :=
  if inp.data.length = 0 then ⟨none, [], []⟩
  else if is_jpeg_header (inp.data.take 16) then
    if inp.pilPathOk then ⟨some 1, [1], [.jpegDirect]⟩
    else ⟨none, [], [.jpegDirect]⟩
  else if inp.pilPathOk then ⟨some 0, [], [.directOpen]⟩
  else
    let r := strategy3 inp
    ⟨r.returned, r.openAfter, .directOpen :: r.attempted⟩

/-- The concrete failing input for the strategy-2 resource bug: a
non-empty file whose header is not JPEG (here a PNG signature) that PIL
can decode directly. -/
def pngDirectInput : PreviewInput :=
  { path := "prev.png"
    data := [0x89, 0x50, 0x4E, 0x47]
    pilPathOk := true
    pilBytesOk := fun _ => false
    rawpy := .unavailable }

/-- A legacy `.lrprev` container whose byte stream contains no JPEG
markers at all. -/
def lrprevNoMarkerInput : PreviewInput :=
  { path := "pyramid.lrprev"
    data := [0, 1, 2, 3]
    pilPathOk := false
    pilBytesOk := fun _ => false
    rawpy := .unavailable }

/-- A file that is neither `.lrprev` nor `.dng`, is not decodable by
PIL, and contains no JPEG start marker. -/
def plainUndecodableInput : PreviewInput :=
  { path := "somefile.bin"
    data := [1, 2, 3, 4]
    pilPathOk := false
    pilBytesOk := fun _ => false
    rawpy := .unavailable }

end PreviewExt

namespace Fs

/-!
### Filesystem search helpers

`get_preview_resolution_rank` (utils.py lines 48-70; filesystem.py lines
330-352 holds a verbatim copy), `format_global_id_as_uuid`
(filesystem.py lines 88-112), `find_preview_by_uuid` (lines 114-150) and
`find_preview_by_basename` (lines 152-196).  The `os.walk` over the
previews directory is modelled as a list of `(root, filename)` pairs in
walk order; the preview index built by `build_preview_index` (lines
49-69) is an insertion-ordered association list from lower-cased
filename to the list of full paths, as the `defaultdict` holds it. -/

/-- `get_preview_resolution_rank` (utils.py lines 48-70): rank a path by
recognized resolution suffixes of its basename; 3 = high, 2 = medium,
1 = low, 0 = unknown. -/
def get_preview_resolution_rank (file_path : String) : Nat :=
  let file_name := pyBasename file_path
  if ["_3202", "_3200", "_3951", "_3199"].any (fun s => strContains file_name s) then 3
  else if ["_1601", "_1600", "_1975", "_1599"].any (fun s => strContains file_name s) then 2
  else if ["_800", "_799", "_987"].any (fun s => strContains file_name s) then 1
  else 0

/-- `format_global_id_as_uuid` (filesystem.py lines 88-112): insert the
four dashes when the id is a bare 32-character hex string. -/
def format_global_id_as_uuid (global_id : String) : String :=
  if global_id = "" then ""
  else
    let cs := global_id.toList
    if !(strContains global_id "-") ∧ cs.length = 32 then
      String.mk (cs.take 8 ++ ['-'] ++ (cs.drop 8).take 4 ++ ['-'] ++ (cs.drop 12).take 4
        ++ ['-'] ++ (cs.drop 16).take 4 ++ ['-'] ++ cs.drop 20)
    else global_id

/-- Stable insertion of a path into a list sorted by descending
resolution rank: the new element goes after existing elements of equal
rank, exactly where Python's stable `list.sort(key=..., reverse=True)`
keeps it. -/
def insertByRankDesc (a : String) : List String → List String
  | [] => [a]
  | b :: l =>
    if get_preview_resolution_rank b < get_preview_resolution_rank a then a :: b :: l
    else b :: insertByRankDesc a l

/-- `preview_files.sort(key=get_preview_resolution_rank, reverse=True)`
(filesystem.py line 145) as a stable insertion sort. -/
def sortByRankDesc (l : List String) : List String :=
  l.foldl (fun acc a => insertByRankDesc a acc) []

/-- The candidate list of `find_preview_by_uuid` (lines 131-141): every
walked file whose name is not a `.db` file and contains the formatted
uuid, joined to its root. -/
def uuidCandidates (walk : List (String × String)) (uuid : String) : List String :=
  let formatted := format_global_id_as_uuid uuid
  (walk.filter (fun rf => !(strEndsWith rf.2 ".db") && strContains rf.2 formatted)).map
    (fun rf => rf.1 ++ "/" ++ rf.2)

/-- `find_preview_by_uuid` (filesystem.py lines 114-150): collect the
candidates, sort them by descending resolution rank, and return the
first.  (The `is_file_uuid` argument only affects logging and is
omitted.) -/
def find_preview_by_uuid (hasPreviewsDir : Bool) (walk : List (String × String))
    (uuid : String) : Option String :=
  if uuid = "" ∨ !hasPreviewsDir then none
  else
    match sortByRankDesc (uuidCandidates walk uuid) with
    | best :: _ => some best
    | [] => none

/-- `find_preview_by_basename` (filesystem.py lines 152-196), in the
indexed branch that runs whenever the previews directory exists (the
index is built in `__init__`).  It first tries an exact index lookup of
the lower-cased base name with its extension stripped, then returns the
first entry, in index insertion order, whose key contains the name; in
both cases it returns element `[0]` of the stored path list untouched.
An index entry is never empty by construction; an empty entry is mapped
to `none` where Python would raise. -/
def find_preview_by_basename (hasPreviewsDir : Bool)
    (previewIndex : List (String × List String)) (base_name : String) : Option String :=
  if base_name = "" ∨ !hasPreviewsDir then none
  else
    let nameLower := strLower (splitextBase base_name)
    match List.lookup nameLower previewIndex with
    | some (x :: _) => some x
    | some [] => none
    | none =>
      match previewIndex.find? (fun e => strContains e.1 nameLower) with
      | some (_, x :: _) => some x
      | some (_, []) => none
      | none => none

/-- Fixture: a preview index holding two candidates for the same image
that differ only by their resolution suffix, the low-resolution one
first in insertion order. -/
def idxLowFirst : List (String × List String) :=
  [("img1_800.jpg", ["/P/img1_800.jpg"]), ("img1_3200.jpg", ["/P/img1_3200.jpg"])]

/-- Fixture: the same index with the high-resolution candidate first. -/
def idxHighFirst : List (String × List String) :=
  [("img1_3200.jpg", ["/P/img1_3200.jpg"]), ("img1_800.jpg", ["/P/img1_800.jpg"])]

/-- Fixture: a directory walk with two files matching uuid `u` at
different resolutions, low-resolution first. -/
def walkTwoRes : List (String × String) :=
  [("r", "u_800.jpg"), ("r", "u_3200.jpg")]

end Fs

namespace PreviewDb

/-!
### Preview database candidate lookup

`PreviewDatabase.get_image_preview_files` (preview_db.py lines 82-108):
walk the previews directory, collect every non-`.db` file whose name
contains the preview uuid, and sort the resulting paths by descending
resolution rank — the same shared ranking used by the uuid search.
`locate_preview_file` then takes element `[0]` of this list
(preview_extractor.py line 175). -/

/-- The unsorted candidate list of `get_image_preview_files`
(preview_db.py lines 95-100): walked files whose name is not a `.db`
file and contains the preview uuid, joined to their root. -/
def previewDbCandidates (walk : List (String × String)) (preview_uuid : String) :
    List String :=
  (walk.filter (fun rf => !(strEndsWith rf.2 ".db") && strContains rf.2 preview_uuid)).map
    (fun rf => rf.1 ++ "/" ++ rf.2)

/-- `PreviewDatabase.get_image_preview_files` (preview_db.py lines
82-108): the candidates sorted by descending resolution rank (line
103, Python's stable `sort(key=get_preview_resolution_rank,
reverse=True)`). -/
def get_image_preview_files (walk : List (String × String)) (preview_uuid : String) :
    List String :=
  Fs.sortByRankDesc (previewDbCandidates walk preview_uuid)

end PreviewDb

namespace Locate

/-!
### Preview location engine

`PreviewExtractor.locate_preview_file` (preview_extractor.py lines
121-210).  The eight strategies are pure lookups into the filesystem
helper, modelled as oracle functions in `LocateEnv`; the instance cache
`_preview_cache` is an association list keyed by the string
`f"{image_id}_{base_name}"`.  Only a successful location is written to
the cache (lines 202-208). -/

/-- The configuration toggles consulted by `locate_preview_file`. -/
structure LocateConfig where
  useIdGlobal : Bool
  usePreviewDb : Bool
  knownPreviewPatterns : List String
  deepSearch : Bool
  useSmartPreviews : Bool
  useOriginalIfNoPreview : Bool

/-- The auxiliary preview database (preview_db.py), reduced to the two
lookups `locate_preview_file` performs on it. -/
structure PreviewDbModel where
  getPreviewUuid : Nat → Option String
  getImagePreviewFiles : String → List String

/-- The filesystem collaborators of `locate_preview_file`, as oracle
functions. -/
structure LocateEnv where
  cfg : LocateConfig
  findPreviewByUuid : String → Bool → Option String
  previewDb : Option PreviewDbModel
  findPreviewByBasename : String → Option String
  findPreviewByPatterns : List String → String → String → Option String
  findPreviewByHash : String → Option String
  findSmartPreview : String → Option String
  getOriginalImagePath : String → String → String → Option String

/-- The fields of the `image_data` tuple that `locate_preview_file`
unpacks (lines 133-140); the two global ids are `None`-able. -/
structure ImageData where
  imageId : Nat
  fileId : Nat
  baseName : String
  pathFromRoot : String
  rootFolder : String
  imageGlobalId : Option String
  fileGlobalId : Option String

/-- Python truthiness of an optional string: `None` and `""` are falsy. -/
def truthyStr : Option String → Bool
  | none => false
  | some s => !(s = "")

/-- The cache key `f"{image_id}_{base_name}"` (line 143). -/
def cacheKey (rec : ImageData) : String := toString rec.imageId ++ "_" ++ rec.baseName

/-- One `if not preview_path and guard: preview_path = run()` stage of
the strategy chain; the second component counts the strategies actually
executed. -/
def step (acc : Option String × Nat) (guard : Bool) (run : Unit → Option String) :
    Option String × Nat :=
  if acc.1.isSome then acc
  else if guard then (run (), acc.2 + 1) else acc

/-- The eight-strategy chain of `locate_preview_file` (lines 163-200),
run on a cache miss: the first non-`none` result wins, later strategies
are not executed, and the second component counts the strategies that
ran. -/
def strategyChain (env : LocateEnv) (rec : ImageData) : Option String × Nat :=
  let a1 := step (none, 0) (truthyStr rec.fileGlobalId && env.cfg.useIdGlobal)
    (fun _ => env.findPreviewByUuid (rec.fileGlobalId.getD "") true)
  let a2 := step a1 (env.previewDb.isSome && env.cfg.usePreviewDb)
    (fun _ =>
      match env.previewDb with
      | some pdb =>
        match pdb.getPreviewUuid rec.imageId with
        | some uuid => (pdb.getImagePreviewFiles uuid).head?
        | none => none
      | none => none)
  let a3 := step a2 (truthyStr rec.imageGlobalId && env.cfg.useIdGlobal)
    (fun _ => env.findPreviewByUuid (rec.imageGlobalId.getD "") false)
  let a4 := step a3 true (fun _ => env.findPreviewByBasename rec.baseName)
  let a5 := step a4 (!env.cfg.knownPreviewPatterns.isEmpty)
    (fun _ => env.findPreviewByPatterns env.cfg.knownPreviewPatterns rec.baseName
      (toString rec.fileId))
  let a6 := step a5 env.cfg.deepSearch (fun _ => env.findPreviewByHash rec.baseName)
  let a7 := step a6 env.cfg.useSmartPreviews (fun _ => env.findSmartPreview rec.baseName)
  let a8 := step a7 env.cfg.useOriginalIfNoPreview
    (fun _ => env.getOriginalImagePath rec.rootFolder rec.pathFromRoot rec.baseName)
  a8

/-- `PreviewExtractor.locate_preview_file` (lines 121-210): returns the
located path (or `none`), the cache after the call, and the number of
location strategies executed (0 on a cache hit).  A hit returns the
cached path untouched (lines 144-156); on a miss the strategy chain
runs and only a successful location is written back to the cache
(lines 202-208). -/
def locate_preview_file (env : LocateEnv) (rec : ImageData)
    (cache : List (String × String)) :
    Option String × List (String × String) × Nat :=
  match List.lookup (cacheKey rec) cache with
  | some p => (some p, cache, 0)
  | none =>
    match strategyChain env rec with
    | (none, n) => (none, cache, n)
    | (some p, n) => (some p, (cacheKey rec, p) :: cache, n)

/-- Fixture: a location environment in which the file-global-id search
and the basename search each find a (different) file, and all other
strategies find nothing. -/
def sampleEnv : LocateEnv :=
  { cfg :=
      { useIdGlobal := true
        usePreviewDb := false
        knownPreviewPatterns := []
        deepSearch := false
        useSmartPreviews := false
        useOriginalIfNoPreview := false }
    findPreviewByUuid := fun u isFile =>
      if u = "fgid1" then (if isFile then some "/previews/fgid1_3200.jpg" else none)
      else none
    previewDb := none
    findPreviewByBasename := fun b =>
      if b = "IMG_1" then some "/previews/img_1_800.jpg" else none
    findPreviewByPatterns := fun _ _ _ => none
    findPreviewByHash := fun _ => none
    findSmartPreview := fun _ => none
    getOriginalImagePath := fun _ _ _ => none }

/-- Fixture: a record whose file global id and base name both match
files in `sampleEnv`. -/
def sampleRec : ImageData :=
  { imageId := 7
    fileId := 3
    baseName := "IMG_1"
    pathFromRoot := "2020/"
    rootFolder := "/photos"
    imageGlobalId := none
    fileGlobalId := some "fgid1" }

/-- Fixture: a record that no strategy of `sampleEnv` can locate. -/
def sampleRecMissing : ImageData :=
  { imageId := 8
    fileId := 4
    baseName := "IMG_2"
    pathFromRoot := "2020/"
    rootFolder := "/photos"
    imageGlobalId := none
    fileGlobalId := some "otherid" }

end Locate

namespace Run

/-!
### Orchestrator run: filtering, batching, checkpoint

`BatchProcessor.run` (batch_processor.py lines 266-385).  Work items are
an arbitrary type `α` with an id projection (`img[0]`).  Per-item
success is a predicate `succeeds`, abstracting the `result["success"]`
flag of the per-item worker.  The checkpoint file content is modelled as
the set passed to the last `save_checkpoint` call, `none` when no save
happened.  The periodic saves at lines 340-342 write intermediate
subsets of `processed_ids` and are superseded by the final save at line
369, so only the final content is recorded. -/

/-- The run-level fields of `ProcessingStats` that the claims concern,
plus the final checkpoint file content. -/
structure RunOutput where
  skippedImages : Nat
  totalImages : Nat
  successfulImages : Nat
  failedImages : Nat
  finalCheckpoint : Option (Finset Nat)
deriving DecidableEq

/-- The batch loop of `run` (lines 317-365) restricted to its
checkpoint-set bookkeeping: slice off `batch_size` items at a time and
add the ids of the successful items of each batch to `processed_ids`
(lines 335-338).  The slice `images[i:i+batch_size]` is `x ::
rest.take (batchSize - 1)` and the loop continues on
`rest.drop (batchSize - 1)`; for `batchSize ≥ 1` this is exactly the
source's slicing (`batchSize = 0` would make the source's `range` raise). -/
def runBatches {α : Type} (batchSize : Nat) (idOf : α → Nat) (succeeds : α → Bool) :
    List α → Finset Nat → Finset Nat
  | [], pids => pids
  | x :: rest, pids =>
    let batch := x :: rest.take (batchSize - 1)
    let after := pids ∪ ((batch.filter succeeds).map idOf).toFinset
    runBatches batchSize idOf succeeds (rest.drop (batchSize - 1)) after
termination_by l => l.length
decreasing_by
  simp only [List.length_drop, List.length_cons]
  omega

/-- `BatchProcessor.run` (lines 266-385): filter out the union of the
catalog's already-tagged ids and the loaded checkpoint set
(`checkpointIds`, which is the empty set when checkpointing is disabled,
matching lines 287-289 and `load_checkpoint`), record the removed count
as `skipped_images` and the rest as `total_images`, return early when
nothing remains (lines 308-310, before any checkpoint save), otherwise
process the batches and save the final checkpoint (lines 367-370) when
checkpointing is enabled. -/
def run {α : Type} (batchSize : Nat) (idOf : α → Nat) (succeeds : α → Bool)
    (images : List α) (alreadyProcessed checkpointIds : Finset Nat)
    (useCheckpoint : Bool) : RunOutput :=
  let processedIds := alreadyProcessed ∪ checkpointIds
  let remaining := images.filter (fun x => !(decide (idOf x ∈ processedIds)))
  let skipped := images.length - remaining.length
  let total := remaining.length
  if total = 0 then ⟨skipped, 0, 0, 0, none⟩
  else
    let finalIds := runBatches batchSize idOf succeeds remaining processedIds
    let succCount := remaining.countP succeeds
    ⟨skipped, total, succCount, total - succCount,
      if useCheckpoint then some finalIds else none⟩

end Run

namespace MetaWrite

/-!
### Metadata persistence

`CatalogDatabase.update_image_metadata` (catalog_db.py lines 930-958)
runs the four sub-writes inside one `with self.cursor(retries=5)` block:
the cursor context manager commits when the block completes and rolls
the transaction back when it raises, so the catalog keeps either all
buffered writes or none of them.  `_apply_keywords` (lines 261-716),
`_apply_aesthetic_score` (lines 718-740) and
`_update_caption_for_film_analysis` (lines 742-881) let `sqlite3.Error`
escape to the context manager; `_store_structured_metadata` (lines
883-928) returns without writing when the `Adobe_additionalMetadata`
table is absent (lines 891-894) and swallows its own `sqlite3.Error`
(lines 927-928), so its failure never aborts the transaction.  Each
sub-write is modelled by whether its statements complete. -/

/-- The four sub-writes of the metadata persistence call. -/
inductive SubWrite where
  | keywords
  | rating
  | caption
  | structuredJson
deriving DecidableEq, Fintype

/-- Behaviour of one `update_image_metadata` call: whether
`ai_metadata` is truthy, whether each of the first three sub-writes
completes (or raises `sqlite3.Error`), whether the auxiliary metadata
table exists, and whether the JSON upsert completes. -/
structure MetaBehavior where
  metadataNonempty : Bool
  keywordsOk : Bool
  ratingOk : Bool
  captionOk : Bool
  auxTablePresent : Bool
  auxUpsertOk : Bool
deriving DecidableEq, Fintype

/-- `CatalogDatabase.update_image_metadata` (lines 930-958): the
returned flag and the sub-writes whose effects are committed to the
catalog when the call returns.  A raising sub-write rolls the whole
transaction back (nothing committed, `False` returned); a missing
auxiliary table or a swallowed upsert error lets the transaction commit
without the JSON sub-write. -/
def update_image_metadata (b : MetaBehavior) : Bool × List SubWrite :=
  if !b.metadataNonempty then (false, [])
  else if !b.keywordsOk then (false, [])
  else if !b.ratingOk then (false, [])
  else if !b.captionOk then (false, [])
  else if b.auxTablePresent && b.auxUpsertOk then
    (true, [.keywords, .rating, .caption, .structuredJson])
  else (true, [.keywords, .rating, .caption])

end MetaWrite

/-!
## Theorems

Helper lemmas come first; each claim is then settled by one theorem
carrying the claim id in its doc comment.
-/

/-- Closed form of the acquisition loop when every attempt hits lock
contention: `remaining + 1` attempts run, the sleeps are the successive
backoffs, and the error of the last attempt is raised. -/
theorem cursorAcquireLoop_allLocked (attempt : Nat → CatalogDb.AttemptResult)
    (errs : Nat → Nat) (hall : ∀ k, attempt k = .lockFailure (errs k)) :
    ∀ remaining k, CatalogDb.cursorAcquireLoop attempt k remaining =
      ⟨remaining + 1,
        (List.range remaining).map (fun i => CatalogDb.backoffWaitMs (k + 1 + i)),
        some (.locked (errs (k + remaining)))⟩ := by
  intro remaining
  induction remaining with
  | zero =>
    intro k
    simp [CatalogDb.cursorAcquireLoop, hall k]
  | succ r ih =>
    intro k
    have hk : k + (r + 1) = k + 1 + r := by omega
    have hfun : (fun i => CatalogDb.backoffWaitMs (k + 1 + 1 + i)) =
        ((fun i => CatalogDb.backoffWaitMs (k + 1 + i)) ∘ (fun x => x + 1)) := by
      funext i
      have : k + 1 + 1 + i = k + 1 + (i + 1) := by omega
      simp [Function.comp, this]
    simp only [CatalogDb.cursorAcquireLoop, hall k, ih (k + 1)]
    rw [hk, List.range_succ_eq_map, List.map_cons, List.map_map, ← hfun]

/-- C1: a cursor acquisition in which every attempt raises the
transient lock-contention error runs the initial attempt plus exactly
`retries` retries, sleeps a non-decreasing sequence of backoff waits,
and finally raises the lock error produced by the last attempt. -/
theorem claim_C1_retry_bound (retries : Nat) (attempt : Nat → CatalogDb.AttemptResult)
    (errs : Nat → Nat) (hall : ∀ k, attempt k = .lockFailure (errs k)) :
    (CatalogDb.cursorAcquire attempt retries).attempts = retries + 1 ∧
    (CatalogDb.cursorAcquire attempt retries).waitsMs.length = retries ∧
    (CatalogDb.cursorAcquire attempt retries).waitsMs.Chain' (· ≤ ·) ∧
    (CatalogDb.cursorAcquire attempt retries).raised =
      some (.locked (errs retries)) := by
  have h := cursorAcquireLoop_allLocked attempt errs hall retries 0
  unfold CatalogDb.cursorAcquire
  rw [h]
  refine ⟨rfl, by simp, ?_, by simp⟩
  have hp : ((List.range retries).map
      (fun i => CatalogDb.backoffWaitMs (0 + 1 + i))).Pairwise (· ≤ ·) := by
    rw [List.pairwise_map]
    apply (List.pairwise_lt_range retries).imp
    intro a b hab
    unfold CatalogDb.backoffWaitMs
    have : 2 ^ (0 + 1 + a) ≤ 2 ^ (0 + 1 + b) :=
      Nat.pow_le_pow_right (by omega) (by omega)
    omega
  exact hp.chain'

/-- Witness for C1 at `retries = 3` with attempt `k` raising lock error
`k`. -/
theorem claim_C1_witness :
    (CatalogDb.cursorAcquire (fun k => .lockFailure k) 3).attempts = 4 ∧
    (CatalogDb.cursorAcquire (fun k => .lockFailure k) 3).waitsMs.length = 3 ∧
    (CatalogDb.cursorAcquire (fun k => .lockFailure k) 3).waitsMs.Chain' (· ≤ ·) ∧
    (CatalogDb.cursorAcquire (fun k => .lockFailure k) 3).raised =
      some (.locked 3) :=
  claim_C1_retry_bound 3 (fun k => .lockFailure k) (fun k => k) (fun _ => rfl)

/-- When the per-item processing raises an unexpected exception, the
per-item handler produces the failed result at stage `exception`
carrying the exception message. -/
theorem process_image_of_raises (i : Nat) (b : String) (env : BatchProc.ItemEnv)
    (h : BatchProc.raisesUnexpected env = true) :
    BatchProc.process_image i b env =
      ⟨i, b, false, "exception", BatchProc.exnMessage env⟩ := by
  rcases env with ⟨l, ex, pr, an, db⟩
  simp only [BatchProc.raisesUnexpected, BatchProc.exnMessage] at h ⊢
  rcases l with a | m
  · rcases a with _ | pa
    · simp at h
    · rcases ex with a2 | m2
      · rcases a2 with _ | pb
        · simp at h
        · rcases pr with a3 | m3
          · rcases a3 with _ | pc
            · simp at h
            · rcases an with a4 | m4
              · rcases a4 with _ | pd
                · simp at h
                · simp at h
              · simp [BatchProc.process_image]
          · simp [BatchProc.process_image]
      · simp [BatchProc.process_image]
  · simp [BatchProc.process_image]

/-- When the per-item processing raises no unexpected exception, the
result's stage is one of the source's named stages, never
`exception`. -/
theorem process_image_stage_ne_exception (i : Nat) (b : String)
    (env : BatchProc.ItemEnv) (h : BatchProc.raisesUnexpected env = false) :
    (BatchProc.process_image i b env).stage ≠ "exception" := by
  rcases env with ⟨l, ex, pr, an, db⟩
  simp only [BatchProc.raisesUnexpected, BatchProc.exnMessage] at h
  rcases l with a | m
  · rcases a with _ | pa
    · simp [BatchProc.process_image]
    · rcases ex with a2 | m2
      · rcases a2 with _ | pb
        · simp [BatchProc.process_image]
        · rcases pr with a3 | m3
          · rcases a3 with _ | pc
            · simp [BatchProc.process_image]
            · rcases an with a4 | m4
              · rcases a4 with _ | pd
                · simp [BatchProc.process_image]
                · rcases db with a5 | m5
                  · rcases a5 <;> simp [BatchProc.process_image]
                  · simp [BatchProc.process_image]
              · simp at h
          · simp at h
      · simp at h
  · simp at h

/-- C2: in a sequential batch where exactly one item's processing raises
an unexpected exception, the result list still has one entry per item,
the failing item's entry is unsuccessful at stage `exception` and
carries the exception message, exactly one entry has stage `exception`,
and every other entry equals the result of processing its item alone. -/
theorem claim_C2_batch_fault_isolation (pre post : List BatchProc.Item)
    (bad : BatchProc.Item)
    (hbad : BatchProc.raisesUnexpected bad.2.2 = true)
    (hok : ∀ it ∈ pre ++ post, BatchProc.raisesUnexpected it.2.2 = false) :
    (BatchProc.process_batch (pre ++ bad :: post)).length =
      (pre ++ bad :: post).length ∧
    BatchProc.process_batch (pre ++ bad :: post) =
      pre.map BatchProc.processItem ++
        ⟨bad.1, bad.2.1, false, "exception", BatchProc.exnMessage bad.2.2⟩ ::
          post.map BatchProc.processItem ∧
    (BatchProc.process_batch (pre ++ bad :: post)).countP
      (fun r => decide (r.stage = "exception")) = 1 ∧
    ∀ it ∈ pre ++ post, (BatchProc.processItem it).stage ≠ "exception" := by
  have hbadres : BatchProc.processItem bad =
      ⟨bad.1, bad.2.1, false, "exception", BatchProc.exnMessage bad.2.2⟩ :=
    process_image_of_raises bad.1 bad.2.1 bad.2.2 hbad
  have hokres : ∀ it ∈ pre ++ post,
      (BatchProc.processItem it).stage ≠ "exception" := by
    intro it hit
    exact process_image_stage_ne_exception it.1 it.2.1 it.2.2 (hok it hit)
  refine ⟨by simp [BatchProc.process_batch], ?_, ?_, hokres⟩
  · simp [BatchProc.process_batch, hbadres]
  · have hpre : (pre.map BatchProc.processItem).countP
        (fun r => decide (r.stage = "exception")) = 0 := by
      rw [List.countP_eq_zero]
      intro r hr
      rcases List.mem_map.mp hr with ⟨it, hit, rfl⟩
      simpa using hokres it (List.mem_append.mpr (Or.inl hit))
    have hpost : (post.map BatchProc.processItem).countP
        (fun r => decide (r.stage = "exception")) = 0 := by
      rw [List.countP_eq_zero]
      intro r hr
      rcases List.mem_map.mp hr with ⟨it, hit, rfl⟩
      simpa using hokres it (List.mem_append.mpr (Or.inr hit))
    simp [BatchProc.process_batch, List.countP_append, List.countP_cons,
      hpre, hpost, hbadres]

/-- Witness for C2 on a three-item batch whose middle item raises. -/
theorem claim_C2_witness :
    (BatchProc.process_batch
        ([(1, "a", BatchProc.envLocateMiss)] ++
          (2, "b", BatchProc.envRaisesBoom) :: [(3, "c", BatchProc.envAllOk)])).length =
      ([(1, "a", BatchProc.envLocateMiss)] ++
        (2, "b", BatchProc.envRaisesBoom) :: [(3, "c", BatchProc.envAllOk)]).length ∧
    BatchProc.process_batch
        ([(1, "a", BatchProc.envLocateMiss)] ++
          (2, "b", BatchProc.envRaisesBoom) :: [(3, "c", BatchProc.envAllOk)]) =
      [(1, "a", BatchProc.envLocateMiss)].map BatchProc.processItem ++
        ⟨2, "b", false, "exception", BatchProc.exnMessage BatchProc.envRaisesBoom⟩ ::
          [((3 : Nat), "c", BatchProc.envAllOk)].map BatchProc.processItem ∧
    (BatchProc.process_batch
        ([(1, "a", BatchProc.envLocateMiss)] ++
          (2, "b", BatchProc.envRaisesBoom) :: [(3, "c", BatchProc.envAllOk)])).countP
      (fun r => decide (r.stage = "exception")) = 1 ∧
    ∀ it ∈ [(1, "a", BatchProc.envLocateMiss)] ++ [((3 : Nat), "c", BatchProc.envAllOk)],
      (BatchProc.processItem it).stage ≠ "exception" :=
  claim_C2_batch_fault_isolation
    [(1, "a", BatchProc.envLocateMiss)] [(3, "c", BatchProc.envAllOk)]
    (2, "b", BatchProc.envRaisesBoom) (by decide) (by decide)

/-- No-leak property of the final-fallback strategy. -/
theorem strategy6_openAfter_subset (inp : PreviewExt.PreviewInput) :
    (PreviewExt.strategy6 inp).openAfter ⊆
      (PreviewExt.strategy6 inp).returned.toList := by
  unfold PreviewExt.strategy6
  split <;> simp

/-- No-leak property of the whole-stream-scan strategy. -/
theorem strategy5_openAfter_subset (inp : PreviewExt.PreviewInput) :
    (PreviewExt.strategy5 inp).openAfter ⊆
      (PreviewExt.strategy5 inp).returned.toList := by
  unfold PreviewExt.strategy5
  have h6 := strategy6_openAfter_subset inp
  rcases hf : findSub [0xFF, 0xD8, 0xFF] inp.data with _ | start
  · simpa using h6
  · rcases hr : rfindSub [0xFF, 0xD9] inp.data with _ | stop
    · simpa using h6
    · by_cases hlt : start < stop
      · simp only [hlt, if_true]
        split <;> simp
      · simp only [hlt, if_false]
        simpa using h6

/-- No-leak property of the DNG PIL fallback. -/
theorem dngPilFallback_openAfter_subset (inp : PreviewExt.PreviewInput) :
    (PreviewExt.dngPilFallback inp).openAfter ⊆
      (PreviewExt.dngPilFallback inp).returned.toList := by
  unfold PreviewExt.dngPilFallback
  split <;> simp

/-- No-leak property of the DNG smart-preview strategy. -/
theorem strategy4_openAfter_subset (inp : PreviewExt.PreviewInput) :
    (PreviewExt.strategy4 inp).openAfter ⊆
      (PreviewExt.strategy4 inp).returned.toList := by
  unfold PreviewExt.strategy4
  have hp := dngPilFallback_openAfter_subset inp
  rcases inp.rawpy with _ | _ | ⟨thumb, postOk⟩
  · simpa using hp
  · simpa using hp
  · rcases thumb with _ | tdata | _ <;> rcases postOk <;>
      simp_all <;> split <;> simp_all

/-- No-leak property of the lrprev strategy and the fall-through. -/
theorem strategy3_openAfter_subset (inp : PreviewExt.PreviewInput) :
    (PreviewExt.strategy3 inp).openAfter ⊆
      (PreviewExt.strategy3 inp).returned.toList := by
  unfold PreviewExt.strategy3
  by_cases h1 : strEndsWith (strLower inp.path) ".lrprev"
  · rw [if_pos h1]
    rcases hf : findSub [0xFF, 0xD8] inp.data with _ | start
    · simp [hf]
    · rcases hr : rfindSub [0xFF, 0xD9] inp.data with _ | stop
      · simp [hf, hr]
      · simp only [hf, hr]
        split <;> simp
  · rw [if_neg h1]
    by_cases h2 : strEndsWith (strLower inp.path) ".dng"
    · rw [if_pos h2]
      exact strategy4_openAfter_subset inp
    · rw [if_neg h2]
      exact strategy5_openAfter_subset inp

/-- Every decode path closes every bitmap handle it opened except, at
most, the one it returns: the handles still open after the call are
always among the returned ones. -/
theorem decode_openAfter_subset (inp : PreviewExt.PreviewInput) :
    (PreviewExt.extract_jpeg_from_preview inp).openAfter ⊆
      (PreviewExt.extract_jpeg_from_preview inp).returned.toList := by
  unfold PreviewExt.extract_jpeg_from_preview
  have h3 := strategy3_openAfter_subset inp
  by_cases h0 : inp.data.length = 0
  · simp [h0]
  · simp only [h0, if_false]
    by_cases hh : PreviewExt.is_jpeg_header (inp.data.take 16)
    · simp only [hh, if_true]
      split <;> simp
    · simp only [hh, Bool.false_eq_true, if_false]
      by_cases hp : inp.pilPathOk
      · simp [hp]
      · simp only [hp, Bool.false_eq_true, if_false]
        simpa using h3

/-- C3: the first half of the claim holds — after every decode outcome
no bitmap handle other than the returned one remains open — but the
second half fails: on a non-empty, non-JPEG-header file that PIL decodes
directly (strategy 2), the `finally` block closes the bound bitmap
before the `return` completes, so the caller receives handle 0 already
released (`openAfter = []`). -/
theorem claim_C3_strategy2_returns_released_bitmap :
    (∀ inp : PreviewExt.PreviewInput,
      (PreviewExt.extract_jpeg_from_preview inp).openAfter ⊆
        (PreviewExt.extract_jpeg_from_preview inp).returned.toList) ∧
    (PreviewExt.extract_jpeg_from_preview PreviewExt.pngDirectInput).returned = some 0 ∧
    (PreviewExt.extract_jpeg_from_preview PreviewExt.pngDirectInput).openAfter = [] ∧
    (PreviewExt.extract_jpeg_from_preview PreviewExt.pngDirectInput).attempted =
      [.directOpen] :=
  ⟨decode_openAfter_subset, by decide, by decide, by decide⟩

/-- C4 counterexample: a `.lrprev` container with no JPEG markers makes
the decoder report failure immediately; the whole-stream scan and the
final generic decode are never attempted. -/
theorem claim_C4_counterexample :
    (PreviewExt.extract_jpeg_from_preview PreviewExt.lrprevNoMarkerInput).returned
      = none ∧
    PreviewExt.Strat.scanStream ∉
      (PreviewExt.extract_jpeg_from_preview PreviewExt.lrprevNoMarkerInput).attempted ∧
    PreviewExt.Strat.finalOpen ∉
      (PreviewExt.extract_jpeg_from_preview PreviewExt.lrprevNoMarkerInput).attempted := by
  refine ⟨by decide, ?_, ?_⟩ <;> decide

/-- C4 (amended): a decode error raised by the direct-open step is
swallowed so the later strategies run — on a file that is neither a
legacy wrapped container nor a raw container and whose stream has no
JPEG start marker, failure is reported only after the whole-stream scan
and the final generic decode have been attempted — but a legacy
`.lrprev` container with no JPEG markers reports failure immediately,
without attempting those later strategies. -/
theorem claim_C4_per_step_fallthrough :
    (∀ inp : PreviewExt.PreviewInput,
      inp.data.length ≠ 0 →
      PreviewExt.is_jpeg_header (inp.data.take 16) = false →
      inp.pilPathOk = false →
      strEndsWith (strLower inp.path) ".lrprev" = false →
      strEndsWith (strLower inp.path) ".dng" = false →
      findSub [0xFF, 0xD8, 0xFF] inp.data = none →
      PreviewExt.extract_jpeg_from_preview inp =
        ⟨none, [], [.directOpen, .scanStream, .finalOpen]⟩) ∧
    (∀ inp : PreviewExt.PreviewInput,
      inp.data.length ≠ 0 →
      PreviewExt.is_jpeg_header (inp.data.take 16) = false →
      inp.pilPathOk = false →
      strEndsWith (strLower inp.path) ".lrprev" = true →
      findSub [0xFF, 0xD8] inp.data = none →
      PreviewExt.extract_jpeg_from_preview inp =
        ⟨none, [], [.directOpen, .lrprevExtract]⟩) := by
  constructor
  · intro inp h0 hh hp hl hd hf
    simp [PreviewExt.extract_jpeg_from_preview, PreviewExt.strategy3,
      PreviewExt.strategy5, PreviewExt.strategy6, h0, hh, hp, hl, hd, hf]
  · intro inp h0 hh hp hl hf
    simp [PreviewExt.extract_jpeg_from_preview, PreviewExt.strategy3,
      h0, hh, hp, hl, hf]

/-- Witness for the amended C4 at the two concrete inputs. -/
theorem claim_C4_witness :
    PreviewExt.extract_jpeg_from_preview PreviewExt.plainUndecodableInput =
      ⟨none, [], [.directOpen, .scanStream, .finalOpen]⟩ ∧
    PreviewExt.extract_jpeg_from_preview PreviewExt.lrprevNoMarkerInput =
      ⟨none, [], [.directOpen, .lrprevExtract]⟩ :=
  ⟨claim_C4_per_step_fallthrough.1 PreviewExt.plainUndecodableInput
      (by decide) (by decide) (by decide) (by decide) (by decide) (by decide),
    claim_C4_per_step_fallthrough.2 PreviewExt.lrprevNoMarkerInput
      (by decide) (by decide) (by decide) (by decide) (by decide)⟩

/-- C5: on a cache miss, when the record has a non-empty file global id,
global-id search is enabled, the global-id search finds `p` and the
basename search finds a different `q`, `locate_preview_file` returns the
global-id match `p` and never the basename match `q`. -/
theorem claim_C5_strategy_precedence (env : Locate.LocateEnv) (rec : Locate.ImageData)
    (cache : List (String × String)) (fid p q : String)
    (hmiss : List.lookup (Locate.cacheKey rec) cache = none)
    (hfid : rec.fileGlobalId = some fid) (hne : fid ≠ "")
    (hidg : env.cfg.useIdGlobal = true)
    (huuid : env.findPreviewByUuid fid true = some p)
    (hbase : env.findPreviewByBasename rec.baseName = some q)
    (hqp : q ≠ p) :
    (Locate.locate_preview_file env rec cache).1 = some p ∧
    (Locate.locate_preview_file env rec cache).1 ≠ some q := by
  have hchain : Locate.strategyChain env rec = (some p, 1) := by
    simp [Locate.strategyChain, Locate.step, Locate.truthyStr, hfid, hne, hidg, huuid]
  have h1 : (Locate.locate_preview_file env rec cache).1 = some p := by
    simp [Locate.locate_preview_file, hmiss, hchain]
  refine ⟨h1, ?_⟩
  rw [h1]
  intro h
  injection h with h2
  exact hqp h2.symm

/-- Witness for C5: both the global-id file and the basename file exist
in `sampleEnv` and differ; the global-id one is returned. -/
theorem claim_C5_witness :
    (Locate.locate_preview_file Locate.sampleEnv Locate.sampleRec []).1 =
      some "/previews/fgid1_3200.jpg" ∧
    (Locate.locate_preview_file Locate.sampleEnv Locate.sampleRec []).1 ≠
      some "/previews/img_1_800.jpg" :=
  claim_C5_strategy_precedence Locate.sampleEnv Locate.sampleRec []
    "fgid1" "/previews/fgid1_3200.jpg" "/previews/img_1_800.jpg"
    (by decide) (by decide) (by decide) (by decide) (by decide) (by decide) (by decide)

/-- C7: when a locate call returns a path, a second call on the same
record against the resulting cache returns the same path, leaves the
cache unchanged, and executes zero strategies (pure cache hit). -/
theorem claim_C7_cache_idempotence (env : Locate.LocateEnv) (rec : Locate.ImageData)
    (cache cache2 : List (String × String)) (p : String) (n : Nat)
    (h : Locate.locate_preview_file env rec cache = (some p, cache2, n)) :
    Locate.locate_preview_file env rec cache2 = (some p, cache2, 0) := by
  unfold Locate.locate_preview_file at h ⊢
  rcases hl : List.lookup (Locate.cacheKey rec) cache with _ | q
  · rw [hl] at h
    rcases hc : Locate.strategyChain env rec with ⟨r, m⟩
    rw [hc] at h
    rcases r with _ | r
    · simp at h
    · simp only [Prod.mk.injEq, Option.some.injEq] at h
      obtain ⟨hp, hc2, _⟩ := h
      subst hp
      subst hc2
      simp [List.lookup]
  · rw [hl] at h
    simp only [Prod.mk.injEq, Option.some.injEq] at h
    obtain ⟨hp, hc2, _⟩ := h
    subst hp
    subst hc2
    rw [hl]

/-- Witness for C7 with `sampleEnv` and `sampleRec`. -/
theorem claim_C7_witness :
    Locate.locate_preview_file Locate.sampleEnv Locate.sampleRec
      [(Locate.cacheKey Locate.sampleRec, "/previews/fgid1_3200.jpg")] =
    (some "/previews/fgid1_3200.jpg",
      [(Locate.cacheKey Locate.sampleRec, "/previews/fgid1_3200.jpg")], 0) :=
  claim_C7_cache_idempotence Locate.sampleEnv Locate.sampleRec []
    [(Locate.cacheKey Locate.sampleRec, "/previews/fgid1_3200.jpg")]
    "/previews/fgid1_3200.jpg" 1 (by decide)

/-- C10: when every strategy fails, nothing is written to the cache (the
cache is returned unchanged and still has no entry for the record), so a
second call on the same record runs the whole strategy chain again and
returns the identical result. -/
theorem claim_C10_notfound_not_cached (env : Locate.LocateEnv) (rec : Locate.ImageData)
    (cache cache2 : List (String × String)) (n : Nat)
    (h : Locate.locate_preview_file env rec cache = (none, cache2, n)) :
    cache2 = cache ∧
    List.lookup (Locate.cacheKey rec) cache2 = none ∧
    Locate.locate_preview_file env rec cache2 = (none, cache2, n) := by
  unfold Locate.locate_preview_file at h ⊢
  rcases hl : List.lookup (Locate.cacheKey rec) cache with _ | q
  · rw [hl] at h
    rcases hc : Locate.strategyChain env rec with ⟨r, m⟩
    rw [hc] at h
    rcases r with _ | r
    · simp only [Prod.mk.injEq] at h
      obtain ⟨_, hc2, hm⟩ := h
      subst hc2
      subst hm
      refine ⟨rfl, hl, ?_⟩
      simp [hl, hc]
    · simp at h
  · rw [hl] at h
    simp at h

/-- Witness for C10 with `sampleEnv` and the unlocatable record: both
calls run the two enabled strategies and fail. -/
theorem claim_C10_witness :
    ([] : List (String × String)) = [] ∧
    List.lookup (Locate.cacheKey Locate.sampleRecMissing) ([] : List (String × String))
      = none ∧
    Locate.locate_preview_file Locate.sampleEnv Locate.sampleRecMissing [] =
      (none, [], 2) :=
  claim_C10_notfound_not_cached Locate.sampleEnv Locate.sampleRecMissing [] [] 2
    (by decide)

/-- Membership in a rank-descending insertion. -/
theorem mem_insertByRankDesc {x a : String} {l : List String} :
    x ∈ Fs.insertByRankDesc a l ↔ x = a ∨ x ∈ l := by
  induction l with
  | nil => simp [Fs.insertByRankDesc]
  | cons b t ih =>
    unfold Fs.insertByRankDesc
    split
    · simp [List.mem_cons]
    · simp only [List.mem_cons, ih]
      tauto

/-- Rank-descending insertion preserves rank-descending sortedness. -/
theorem sorted_insertByRankDesc (a : String) (l : List String)
    (h : l.Pairwise (fun u v =>
      Fs.get_preview_resolution_rank v ≤ Fs.get_preview_resolution_rank u)) :
    (Fs.insertByRankDesc a l).Pairwise (fun u v =>
      Fs.get_preview_resolution_rank v ≤ Fs.get_preview_resolution_rank u) := by
  induction l with
  | nil => simp [Fs.insertByRankDesc]
  | cons b t ih =>
    rcases List.pairwise_cons.mp h with ⟨hb, ht⟩
    unfold Fs.insertByRankDesc
    split
    · rename_i hba
      refine List.pairwise_cons.mpr ⟨?_, h⟩
      intro y hy
      rcases List.mem_cons.mp hy with rfl | hy
      · omega
      · exact le_trans (hb y hy) (le_of_lt hba)
    · rename_i hba
      refine List.pairwise_cons.mpr ⟨?_, ih ht⟩
      intro y hy
      rcases mem_insertByRankDesc.mp hy with rfl | hy
      · omega
      · exact hb y hy

/-- Membership in the stable rank-descending sort. -/
theorem mem_sortByRankDesc {x : String} {l : List String} :
    x ∈ Fs.sortByRankDesc l ↔ x ∈ l := by
  have haux : ∀ (l acc : List String),
      x ∈ l.foldl (fun acc a => Fs.insertByRankDesc a acc) acc ↔ x ∈ acc ∨ x ∈ l := by
    intro l
    induction l with
    | nil => simp
    | cons b t ih =>
      intro acc
      simp only [List.foldl_cons, ih, mem_insertByRankDesc, List.mem_cons]
      tauto
  simpa using haux l []

/-- The stable rank-descending sort is rank-descending sorted. -/
theorem sorted_sortByRankDesc (l : List String) :
    (Fs.sortByRankDesc l).Pairwise (fun u v =>
      Fs.get_preview_resolution_rank v ≤ Fs.get_preview_resolution_rank u) := by
  have haux : ∀ (l acc : List String),
      acc.Pairwise (fun u v =>
        Fs.get_preview_resolution_rank v ≤ Fs.get_preview_resolution_rank u) →
      (l.foldl (fun acc a => Fs.insertByRankDesc a acc) acc).Pairwise (fun u v =>
        Fs.get_preview_resolution_rank v ≤ Fs.get_preview_resolution_rank u) := by
    intro l
    induction l with
    | nil => intro acc h; simpa using h
    | cons b t ih =>
      intro acc h
      exact ih (Fs.insertByRankDesc b acc) (sorted_insertByRankDesc b acc h)
  exact haux l [] (by simp)

/-- C6 counterexample: `find_preview_by_basename` ignores resolution
rank: with two candidates differing only by a recognized resolution
suffix, it returns the first index entry, so the low-ranked file wins
when it comes first, and flipping the index order flips the result. -/
theorem claim_C6_counterexample :
    Fs.find_preview_by_basename true Fs.idxLowFirst "img1.nef" =
      some "/P/img1_800.jpg" ∧
    Fs.find_preview_by_basename true Fs.idxHighFirst "img1.nef" =
      some "/P/img1_3200.jpg" ∧
    Fs.get_preview_resolution_rank "/P/img1_800.jpg" <
      Fs.get_preview_resolution_rank "/P/img1_3200.jpg" := by
  refine ⟨by decide, by decide, by decide⟩

/-- The head of the stable rank-descending sort of a list is a member
of the list of maximal resolution rank. -/
theorem sortByRankDesc_head_max (l : List String) (best : String) (rest : List String)
    (h : Fs.sortByRankDesc l = best :: rest) :
    best ∈ l ∧ ∀ f ∈ l,
      Fs.get_preview_resolution_rank f ≤ Fs.get_preview_resolution_rank best := by
  have hsorted := sorted_sortByRankDesc l
  rw [h] at hsorted
  rcases List.pairwise_cons.mp hsorted with ⟨hmax, _⟩
  constructor
  · have hmem : best ∈ Fs.sortByRankDesc l := by
      rw [h]
      exact List.mem_cons_self best rest
    exact mem_sortByRankDesc.mp hmem
  · intro f hf
    have hmem : f ∈ best :: rest := by
      rw [← h]
      exact mem_sortByRankDesc.mpr hf
    rcases List.mem_cons.mp hmem with rfl | hf2
    · exact le_refl _
    · exact hmax f hf2

/-- C6 (amended): the two strategies that rank their candidates — the
global-id search and the preview-database lookup — each select a
candidate of maximal resolution rank among the files matching the uuid,
the rank having four tiers (3 high, 2 medium, 1 low, 0 unknown, unknown
lowest); the basename strategy, by contrast, ignores rank and returns
the first matching index entry in index-insertion order, so there the
selection among candidates differing only by a resolution suffix
depends on filesystem iteration order, not rank. -/
theorem claim_C6_rank_tiebreak (hasDir : Bool) :
    (∀ (walk : List (String × String)) (uuid best : String),
      Fs.find_preview_by_uuid hasDir walk uuid = some best →
      best ∈ Fs.uuidCandidates walk uuid ∧
      ∀ f ∈ Fs.uuidCandidates walk uuid,
        Fs.get_preview_resolution_rank f ≤ Fs.get_preview_resolution_rank best) ∧
    (∀ (walk : List (String × String)) (preview_uuid best : String),
      (PreviewDb.get_image_preview_files walk preview_uuid).head? = some best →
      best ∈ PreviewDb.previewDbCandidates walk preview_uuid ∧
      ∀ f ∈ PreviewDb.previewDbCandidates walk preview_uuid,
        Fs.get_preview_resolution_rank f ≤ Fs.get_preview_resolution_rank best) ∧
    (∀ (idx : List (String × List String)) (base k x : String) (t : List String),
      ¬(base = "" ∨ !hasDir) →
      List.lookup (strLower (splitextBase base)) idx = none →
      idx.find? (fun e => strContains e.1 (strLower (splitextBase base))) =
        some (k, x :: t) →
      Fs.find_preview_by_basename hasDir idx base = some x) := by
  refine ⟨?_, ?_, ?_⟩
  · intro walk uuid best h
    unfold Fs.find_preview_by_uuid at h
    by_cases hguard : uuid = "" ∨ !hasDir
    · rw [if_pos hguard] at h
      exact absurd h (by simp)
    · rw [if_neg hguard] at h
      rcases hs : Fs.sortByRankDesc (Fs.uuidCandidates walk uuid) with _ | ⟨b, rest⟩
      · rw [hs] at h
        exact absurd h (by simp)
      · rw [hs] at h
        have hb : b = best := by simpa using h
        subst hb
        exact sortByRankDesc_head_max _ b rest hs
  · intro walk preview_uuid best h
    unfold PreviewDb.get_image_preview_files at h
    rcases hs : Fs.sortByRankDesc (PreviewDb.previewDbCandidates walk preview_uuid)
      with _ | ⟨b, rest⟩
    · rw [hs] at h
      exact absurd h (by simp)
    · rw [hs] at h
      have hb : b = best := by simpa using h
      subst hb
      exact sortByRankDesc_head_max _ b rest hs
  · intro idx base k x t hguard hlook hfind
    push_neg at hguard
    obtain ⟨h1, h2⟩ := hguard
    simp [Fs.find_preview_by_basename, hlook, hfind]
    refine ⟨h1, ?_⟩
    cases hasDir
    · exact absurd rfl h2
    · rfl

/-- Witness for the amended C6: on `walkTwoRes` both the uuid strategy
and the preview-database lookup pick the high-resolution candidate; the
basename strategy picks the first entry of `idxLowFirst`. -/
theorem claim_C6_witness :
    ("r/u_3200.jpg" ∈ Fs.uuidCandidates Fs.walkTwoRes "u" ∧
      ∀ f ∈ Fs.uuidCandidates Fs.walkTwoRes "u",
        Fs.get_preview_resolution_rank f ≤
          Fs.get_preview_resolution_rank "r/u_3200.jpg") ∧
    ("r/u_3200.jpg" ∈ PreviewDb.previewDbCandidates Fs.walkTwoRes "u" ∧
      ∀ f ∈ PreviewDb.previewDbCandidates Fs.walkTwoRes "u",
        Fs.get_preview_resolution_rank f ≤
          Fs.get_preview_resolution_rank "r/u_3200.jpg") ∧
    Fs.find_preview_by_basename true Fs.idxLowFirst "img1.nef" =
      some "/P/img1_800.jpg" :=
  ⟨(claim_C6_rank_tiebreak true).1 Fs.walkTwoRes "u" "r/u_3200.jpg" (by decide),
    (claim_C6_rank_tiebreak true).2.1 Fs.walkTwoRes "u" "r/u_3200.jpg" (by decide),
    (claim_C6_rank_tiebreak true).2.2 Fs.idxLowFirst "img1.nef" "img1_800.jpg"
      "/P/img1_800.jpg" [] (by decide) (by decide) (by decide)⟩

/-- Closed form of the checkpoint-set bookkeeping of the batch loop:
chunking does not matter, the final set is the initial set united with
the ids of all successful items. -/
theorem runBatches_eq {α : Type} (batchSize : Nat) (idOf : α → Nat)
    (succeeds : α → Bool) :
    ∀ (n : Nat) (l : List α), l.length ≤ n → ∀ pids : Finset Nat,
      Run.runBatches batchSize idOf succeeds l pids =
        pids ∪ ((l.filter succeeds).map idOf).toFinset := by
  intro n
  induction n with
  | zero =>
    intro l hl pids
    have h0 : l = [] := List.length_eq_zero.mp (Nat.le_zero.mp hl)
    subst h0
    simp [Run.runBatches]
  | succ n ih =>
    intro l hl pids
    match l with
    | [] => simp [Run.runBatches]
    | x :: rest =>
      rw [Run.runBatches]
      have hlen : (rest.drop (batchSize - 1)).length ≤ n := by
        simp only [List.length_drop]
        simp only [List.length_cons] at hl
        omega
      rw [ih _ hlen]
      have hsplit : x :: rest =
          (x :: rest.take (batchSize - 1)) ++ rest.drop (batchSize - 1) := by
        simp
      conv_rhs => rw [hsplit]
      rw [List.filter_append, List.map_append, List.toFinset_append,
        Finset.union_assoc]

/-- C8 counterexample: when every fetched record is already in the
union of tagged and checkpointed ids, `run` returns before any
checkpoint save (batch_processor.py lines 308-310), so the checkpoint
file is never written: it does not contain the union, although the run
completed.  The skipped and total counts are still recorded. -/
theorem claim_C8_counterexample :
    (Run.run 1 (fun n => n) (fun _ => true) [1] {1} ∅ true).finalCheckpoint = none ∧
    (Run.run 1 (fun n => n) (fun _ => true) [1] {1} ∅ true).finalCheckpoint ≠
      some (({1} : Finset Nat) ∪ ∅ ∪ ∅) ∧
    (Run.run 1 (fun n => n) (fun _ => true) [1] {1} ∅ true).skippedImages = 1 ∧
    (Run.run 1 (fun n => n) (fun _ => true) [1] {1} ∅ true).totalImages = 0 := by
  refine ⟨by decide, by decide, by decide, by decide⟩

/-- Counting members and non-members of a list partitions its length. -/
theorem countP_add_countP_not {α : Type} (p : α → Bool) (l : List α) :
    l.countP p + l.countP (fun a => !(p a)) = l.length := by
  induction l with
  | nil => simp
  | cons a t ih =>
    by_cases h : p a = true <;> simp [List.countP_cons, h, ← ih] <;> omega

/-- C8 (amended): whenever at least one fetched record survives the
filter, `run` removes exactly the records whose id lies in the union of
the already-tagged set and the checkpoint set, records the removed count
as `skipped_images` and the remainder as `total_images`, counts
successes and failures over the remainder, and the final checkpoint save
contains exactly the union plus the ids of the newly successful items.
(When no record survives, the run returns early and never saves.) -/
theorem claim_C8_filter_and_checkpoint {α : Type} (batchSize : Nat) (idOf : α → Nat)
    (succeeds : α → Bool) (images : List α)
    (alreadyProcessed checkpointIds : Finset Nat)
    (hne : images.filter
      (fun x => !(decide (idOf x ∈ alreadyProcessed ∪ checkpointIds))) ≠ []) :
    (Run.run batchSize idOf succeeds images alreadyProcessed checkpointIds
        true).skippedImages =
      images.countP (fun x => decide (idOf x ∈ alreadyProcessed ∪ checkpointIds)) ∧
    (Run.run batchSize idOf succeeds images alreadyProcessed checkpointIds
        true).totalImages =
      (images.filter
        (fun x => !(decide (idOf x ∈ alreadyProcessed ∪ checkpointIds)))).length ∧
    (Run.run batchSize idOf succeeds images alreadyProcessed checkpointIds
        true).successfulImages =
      (images.filter
        (fun x => !(decide (idOf x ∈ alreadyProcessed ∪ checkpointIds)))).countP
        succeeds ∧
    (Run.run batchSize idOf succeeds images alreadyProcessed checkpointIds
        true).failedImages =
      (images.filter
        (fun x => !(decide (idOf x ∈ alreadyProcessed ∪ checkpointIds)))).length -
      (images.filter
        (fun x => !(decide (idOf x ∈ alreadyProcessed ∪ checkpointIds)))).countP
        succeeds ∧
    (Run.run batchSize idOf succeeds images alreadyProcessed checkpointIds
        true).finalCheckpoint =
      some ((alreadyProcessed ∪ checkpointIds) ∪
        (((images.filter
            (fun x => !(decide (idOf x ∈ alreadyProcessed ∪ checkpointIds)))).filter
              succeeds).map idOf).toFinset) := by
  have htot : (images.filter
      (fun x => !(decide (idOf x ∈ alreadyProcessed ∪ checkpointIds)))).length ≠ 0 :=
    fun h => hne (List.length_eq_zero.mp h)
  have hrb := runBatches_eq batchSize idOf succeeds
    (images.filter
      (fun x => !(decide (idOf x ∈ alreadyProcessed ∪ checkpointIds)))).length
    (images.filter (fun x => !(decide (idOf x ∈ alreadyProcessed ∪ checkpointIds))))
    le_rfl (alreadyProcessed ∪ checkpointIds)
  have hskip : images.length -
      (images.filter
        (fun x => !(decide (idOf x ∈ alreadyProcessed ∪ checkpointIds)))).length =
      images.countP
        (fun x => decide (idOf x ∈ alreadyProcessed ∪ checkpointIds)) := by
    have h1 := countP_add_countP_not
      (fun x => decide (idOf x ∈ alreadyProcessed ∪ checkpointIds)) images
    have h2 : (images.filter
        (fun x => !(decide (idOf x ∈ alreadyProcessed ∪ checkpointIds)))).length =
        images.countP
          (fun x => !(decide (idOf x ∈ alreadyProcessed ∪ checkpointIds))) :=
      (List.countP_eq_length_filter _ _).symm
    omega
  have hrun : Run.run batchSize idOf succeeds images alreadyProcessed checkpointIds
      true =
      ⟨images.length -
          (images.filter
            (fun x => !(decide (idOf x ∈ alreadyProcessed ∪ checkpointIds)))).length,
        (images.filter
          (fun x => !(decide (idOf x ∈ alreadyProcessed ∪ checkpointIds)))).length,
        (images.filter
          (fun x => !(decide (idOf x ∈ alreadyProcessed ∪ checkpointIds)))).countP
          succeeds,
        (images.filter
          (fun x => !(decide (idOf x ∈ alreadyProcessed ∪ checkpointIds)))).length -
        (images.filter
          (fun x => !(decide (idOf x ∈ alreadyProcessed ∪ checkpointIds)))).countP
          succeeds,
        some (Run.runBatches batchSize idOf succeeds
          (images.filter
            (fun x => !(decide (idOf x ∈ alreadyProcessed ∪ checkpointIds))))
          (alreadyProcessed ∪ checkpointIds))⟩ := by
    simp only [Run.run]
    rw [if_neg htot]
    simp
  rw [hrun]
  exact ⟨hskip, rfl, rfl, rfl, by rw [hrb]⟩

/-- Witness for C8 on the spec's end-to-end scenario: 5 records, 2
already tagged, 1 in the checkpoint, one of the 2 remaining succeeding:
`total_images = 2`, `skipped_images = 3`, one success, one failure, and
a final checkpoint of 4 identifiers. -/
theorem claim_C8_witness :
    (Run.run 2 (fun n => n) (fun n => decide (n = 4)) [1, 2, 3, 4, 5]
        {1, 2} {3} true).skippedImages = 3 ∧
    (Run.run 2 (fun n => n) (fun n => decide (n = 4)) [1, 2, 3, 4, 5]
        {1, 2} {3} true).totalImages = 2 ∧
    (Run.run 2 (fun n => n) (fun n => decide (n = 4)) [1, 2, 3, 4, 5]
        {1, 2} {3} true).successfulImages = 1 ∧
    (Run.run 2 (fun n => n) (fun n => decide (n = 4)) [1, 2, 3, 4, 5]
        {1, 2} {3} true).failedImages = 1 ∧
    (Run.run 2 (fun n => n) (fun n => decide (n = 4)) [1, 2, 3, 4, 5]
        {1, 2} {3} true).finalCheckpoint = some {1, 2, 3, 4} := by
  obtain ⟨h1, h2, h3, h4, h5⟩ := claim_C8_filter_and_checkpoint 2 (fun n => n)
    (fun n => decide (n = 4)) [1, 2, 3, 4, 5] {1, 2} {3} (by decide)
  refine ⟨?_, ?_, ?_, ?_, ?_⟩
  · rw [h1]
    decide
  · rw [h2]
    decide
  · rw [h3]
    decide
  · rw [h4]
    decide
  · rw [h5]
    decide

/-- C9 counterexample: on a catalog without the auxiliary
`Adobe_additionalMetadata` table the call succeeds — the transaction
commits and `True` is returned — while the structured-JSON upsert is not
applied, so success does not imply that all four sub-writes applied. -/
theorem claim_C9_counterexample :
    (MetaWrite.update_image_metadata ⟨true, true, true, true, false, true⟩).1 =
      true ∧
    MetaWrite.SubWrite.structuredJson ∉
      (MetaWrite.update_image_metadata ⟨true, true, true, true, false, true⟩).2 := by
  refine ⟨by decide, by decide⟩

/-- C9 (amended): the sub-writes run inside one transaction — a failing
call applies none of them, and a successful call applies the keyword,
rating and caption sub-writes — but the structured-JSON upsert is
applied exactly when the auxiliary table exists and the upsert raises no
database error; an upsert error is swallowed and never aborts the
transaction. -/
theorem claim_C9_transaction_atomicity (b : MetaWrite.MetaBehavior) :
    ((MetaWrite.update_image_metadata b).1 = false →
      (MetaWrite.update_image_metadata b).2 = []) ∧
    ((MetaWrite.update_image_metadata b).1 = true →
      MetaWrite.SubWrite.keywords ∈ (MetaWrite.update_image_metadata b).2 ∧
      MetaWrite.SubWrite.rating ∈ (MetaWrite.update_image_metadata b).2 ∧
      MetaWrite.SubWrite.caption ∈ (MetaWrite.update_image_metadata b).2 ∧
      (MetaWrite.SubWrite.structuredJson ∈ (MetaWrite.update_image_metadata b).2 ↔
        b.auxTablePresent = true ∧ b.auxUpsertOk = true)) := by
  revert b
  decide

/-- Witness for C9 on a fully successful call: all four sub-writes are
applied. -/
theorem claim_C9_witness :
    MetaWrite.SubWrite.keywords ∈
      (MetaWrite.update_image_metadata ⟨true, true, true, true, true, true⟩).2 ∧
    MetaWrite.SubWrite.rating ∈
      (MetaWrite.update_image_metadata ⟨true, true, true, true, true, true⟩).2 ∧
    MetaWrite.SubWrite.caption ∈
      (MetaWrite.update_image_metadata ⟨true, true, true, true, true, true⟩).2 ∧
    (MetaWrite.SubWrite.structuredJson ∈
        (MetaWrite.update_image_metadata ⟨true, true, true, true, true, true⟩).2 ↔
      true = true ∧ true = true) :=
  (claim_C9_transaction_atomicity ⟨true, true, true, true, true, true⟩).2 (by decide)
